import Mathlib

/-!
Shallow embedding of the stanfordData4321 scripts (main1.py, models/old_cnn.py,
models/densenetBackup1.py, capsnet.py) and proofs about them.

Filesystem state is modelled as the list of paths of existing files; a path is
a file of the filesystem exactly when it is a member of that list.  Spreadsheet
contents are modelled as a list of rows, each carrying the two columns the
scripts read (`midas_file_name` and `clinical_impression_1`).  Image decoding
and tensor transforms are kept abstract (parameters of the definitions),
since no claim depends on pixel values.
-/

namespace StanfordData

/-- Fixed label list `categories` defined identically in main1.py (lines 32-38),
old_cnn.py (lines 34-40) and densenetBackup1.py (lines 19-25). -/
def categories : List String :=
  ["7-malignant-bcc", "1-benign-melanocytic nevus", "6-benign-other",
   "14-other-non-neoplastic/inflammatory/infectious", "8-malignant-scc",
   "9-malignant-sccis", "10-malignant-ak", "3-benign-fibrous papule",
   "4-benign-dermatofibroma", "2-benign-seborrheic keratosis",
   "5-benign-hemangioma", "11-malignant-melanoma",
   "13-other-melanocytic lesion with possible re-excision (severe/spitz nevus, aimp)",
   "12-malignant-other"]

/-- One spreadsheet row, with the two columns the dataset wrappers read:
`row['midas_file_name']` and `row['clinical_impression_1']`. -/
structure Row where
  fileName : String
  label : String
deriving DecidableEq, Repr

/-- POSIX `os.path.join(root, name)` for the two-argument case used by the
scripts: an absolute second component discards the first; otherwise the parts
are joined with a single `/` (none added when the root already ends with one). -/
def joinPath (root name : String) : String :=
  if name.data.head? = some '/' then name
  else if root = "" then name
  else if root.data.getLast? = some '/' then root ++ name
  else root ++ "/" ++ name

/-- Membership of a dict built as `{label: idx for idx, label in enumerate(categories)}`
is membership in `categories` (the keys). -/
def labelMapMem (label : String) : Bool :=
  categories.contains label

/-- Value of `label_map.get(label, -1)` where
`label_map = {label: idx for idx, label in enumerate(categories)}` (the
categories are pairwise distinct, so the dict maps each category to its
position in the list). -/
def labelMapGet (label : String) : Int :=
  match categories.enum.find? (fun p => p.2 = label) with
  | some p => (p.1 : Int)
  | none => -1

/-! ### main1.py: class ExcelImageDataset (lines 111-153) -/

namespace Main1

/-- Inner loop of `_get_image_paths` (main1.py lines 126-136) over one row:
for each root directory in order, if the joined path is a file, then either
append `(path, label)` and break (valid label) or `continue` to the next root
directory (invalid label). -/
def findInRoots (fname label : String) (fs : List String) :
    List String → Option (String × String)
  | [] => none
  | rootDir :: rest =>
    if (joinPath rootDir fname) ∈ fs then
      if labelMapMem label then some (joinPath rootDir fname, label)
      else findInRoots fname label fs rest
    else findInRoots fname label fs rest

/-- `ExcelImageDataset._get_image_paths` (main1.py lines 123-140): iterate the
rows in order, appending at most one `(image path, label)` pair per row. -/
def getImagePaths (rows : List Row) (rootDirs : List String) (fs : List String) :
    List (String × String) :=
  rows.filterMap (fun r => findInRoots r.fileName r.label fs rootDirs)

/-- `ExcelImageDataset.__len__` (main1.py lines 142-143). -/
def datasetLen (rows : List Row) (rootDirs : List String) (fs : List String) : Nat :=
  (getImagePaths rows rootDirs fs).length

/-- `ExcelImageDataset.__getitem__` (main1.py lines 145-153): look up the
stored pair, open and optionally transform the image, and encode the label as
`label_map.get(label, -1)`.  Image decoding (`Image.open(...).convert("RGB")`)
is the abstract `loadImage`, and `self.transform` is an optional function. -/
def getItem {Img : Type} (loadImage : String → Img) (transform : Option (Img → Img))
    (imagePaths : List (String × String)) (idx : Nat) : Option (Img × Int) :=
  match imagePaths.get? idx with
  | none => none
  | some (imgName, label) =>
    let image := loadImage imgName
    let image := match transform with
      | some t => t image
      | none => image
    some (image, labelMapGet label)

end Main1

/-! ### models/old_cnn.py: class ExcelImageDataset (lines 59-97) -/

namespace OldCnn

/-- Inner loop of `_get_image_paths` (old_cnn.py lines 72-82), identical in
logic to main1.py (warnings go to `logging` instead of `print`). -/
def findInRoots (fname label : String) (fs : List String) :
    List String → Option (String × String)
  | [] => none
  | rootDir :: rest =>
    if (joinPath rootDir fname) ∈ fs then
      if labelMapMem label then some (joinPath rootDir fname, label)
      else findInRoots fname label fs rest
    else findInRoots fname label fs rest

/-- `ExcelImageDataset._get_image_paths` (old_cnn.py lines 69-86). -/
def getImagePaths (rows : List Row) (rootDirs : List String) (fs : List String) :
    List (String × String) :=
  rows.filterMap (fun r => findInRoots r.fileName r.label fs rootDirs)

/-- `ExcelImageDataset.__getitem__` (old_cnn.py lines 91-97). -/
def getItem {Img : Type} (loadImage : String → Img) (transform : Option (Img → Img))
    (imagePaths : List (String × String)) (idx : Nat) : Option (Img × Int) :=
  match imagePaths.get? idx with
  | none => none
  | some (imgName, label) =>
    let image := loadImage imgName
    let image := match transform with
      | some t => t image
      | none => image
    some (image, labelMapGet label)

end OldCnn

/-! ### models/densenetBackup1.py: class ExcelImageDataset (lines 34-71) -/

namespace DensenetBackup

/-- Inner loop of `_get_image_paths` (densenetBackup1.py lines 46-56),
identical in logic to main1.py. -/
def findInRoots (fname label : String) (fs : List String) :
    List String → Option (String × String)
  | [] => none
  | rootDir :: rest =>
    if (joinPath rootDir fname) ∈ fs then
      if labelMapMem label then some (joinPath rootDir fname, label)
      else findInRoots fname label fs rest
    else findInRoots fname label fs rest

/-- `ExcelImageDataset._get_image_paths` (densenetBackup1.py lines 43-60). -/
def getImagePaths (rows : List Row) (rootDirs : List String) (fs : List String) :
    List (String × String) :=
  rows.filterMap (fun r => findInRoots r.fileName r.label fs rootDirs)

/-- `ExcelImageDataset.__getitem__` (densenetBackup1.py lines 65-71). -/
def getItem {Img : Type} (loadImage : String → Img) (transform : Option (Img → Img))
    (imagePaths : List (String × String)) (idx : Nat) : Option (Img × Int) :=
  match imagePaths.get? idx with
  | none => none
  | some (imgName, label) =>
    let image := loadImage imgName
    let image := match transform with
      | some t => t image
      | none => image
    some (image, labelMapGet label)

end DensenetBackup

/-! ### Spreadsheet-existence check at the top of main1.py / old_cnn.py -/

/-! ### main1.py: save_augmented_images_with_exact_cap (lines 177-217)

The dataset is modelled as the list of its `(image, label.item())` pairs in
index order; pixel contents never matter to the control flow, so the image
component stays an abstract type. -/

/-- One `label_to_images[label].append((img, idx))` step (main1.py lines
182-188); Python dicts keep keys in insertion order, so the grouping is an
association list extended at the back. -/
def insertGroup {Img : Type} (gs : List (Nat × List (Img × Nat))) (lab : Nat)
    (entry : Img × Nat) : List (Nat × List (Img × Nat)) :=
  match gs with
  | [] => [(lab, [entry])]
  | (l, es) :: rest =>
    if l = lab then (l, es ++ [entry]) :: rest
    else (l, es) :: insertGroup rest lab entry

/-- The grouping loop `for idx in range(len(dataset)) ...` of
`save_augmented_images_with_exact_cap` (main1.py lines 182-188). -/
def groupByLabel {Img : Type} (ds : List (Img × Nat)) : List (Nat × List (Img × Nat)) :=
  ds.enum.foldl (fun gs p => insertGroup gs p.2.2 (p.2.1, p.1)) []

/-- One file saved by `save_augmented_images_with_exact_cap`: the dataset
index and running count baked into the file name
`f"{idx}_aug_{current_count}.png"` (that rendering is injective in the pair
`(idx, counter)`, since neither decimal numeral contains an underscore), plus
whether `augmentation_transforms` was applied before saving. -/
structure SaveRec where
  idx : Nat
  counter : Nat
  augmented : Bool
deriving DecidableEq, Repr

/-- Inner `for img, idx in images` loop (main1.py lines 202-217): break when
`current_count >= target_count`; otherwise save one file per entry — applying
`augmentation_transforms` exactly when `current_count >= len(images)` — and
increment the count.  Returns this pass's saves and the updated count. -/
def forPass {Img : Type} (nImages target : Nat) :
    List (Img × Nat) → Nat → List SaveRec × Nat
  | [], cur => ([], cur)
  | (_, idx) :: rest, cur =>
    if target ≤ cur then ([], cur)
    else
      let saved : SaveRec := ⟨idx, cur, decide (nImages ≤ cur)⟩
      let next := forPass nImages target rest (cur + 1)
      (saved :: next.1, next.2)

/-- The `while current_count < target_count` loop (main1.py lines 201-217)
with explicit fuel; `none` models failure to terminate within the fuel. -/
def whileLoop {Img : Type} (images : List (Img × Nat)) (target : Nat) :
    Nat → Nat → Option (List SaveRec)
  | 0, cur => if cur < target then none else some []
  | fuel + 1, cur =>
    if cur < target then
      let pass := forPass images.length target images cur
      match whileLoop images target fuel pass.2 with
      | some more => some (pass.1 ++ more)
      | none => none
    else some []

/-- Per-label body of `save_augmented_images_with_exact_cap` (main1.py lines
191-217) for a label whose directory is initially empty, so that
`current_count` starts at 0; the fuel `target` suffices (proved below). -/
def saveForLabel {Img : Type} (images : List (Img × Nat)) (target : Nat) :
    Option (List SaveRec) :=
  whileLoop images target target 0

/-! ### Spec-side characterization of `_get_image_paths` (used for C2) -/

/-- First root directory, in the given order, under which the row's file
exists (this is the spec's description of where a retained image path comes
from). -/
def firstRootWithFile (fname : String) (rootDirs fs : List String) : Option String :=
  rootDirs.find? (fun root => decide ((joinPath root fname) ∈ fs))

/-- Spec-side description of one row's fate: it is retained exactly when its
label is one of the fixed categories and its file exists under some root
directory, in which case the stored pair joins the first such root directory
with the file name. -/
def retainRow (rootDirs fs : List String) (r : Row) : Option (String × String) :=
  if labelMapMem r.label then
    (firstRootWithFile r.fileName rootDirs fs).map
      (fun root => (joinPath root r.fileName, r.label))
  else none

/-- Hard-coded spreadsheet path of main1.py (line 23) and old_cnn.py (line 25). -/
def excelFilePath : String := "./dataRef/release_midas.xlsx"

/-- Top of main1.py (lines 23-27) and old_cnn.py (lines 25-29): raise
`FileNotFoundError` when the spreadsheet path does not exist, otherwise load
it with `pd.read_excel`.  The abstract `readExcel` stands for the spreadsheet
parser; raising is the `Except.error` branch. -/
def scriptPrelude (fs : List String) (readExcel : String → List Row) :
    Except String (List Row) :=
  if excelFilePath ∈ fs then Except.ok (readExcel excelFilePath)
  else Except.error (excelFilePath ++ " does not exist. Please check the path.")

/-! ### capsnet.py: squash and routing-by-agreement

Tensors are embedded as real-valued functions over `Fin`-indexed dimensions,
in exact real arithmetic.  The trailing size-1 dimension of the routing
logits `b` is collapsed. -/

/-- Sum of squares `(s ** 2).sum(dim=-1)` of a vector. -/
noncomputable def sqNorm {n : Nat} (s : Fin n → ℝ) : ℝ := ∑ i, (s i) ^ 2

/-- Euclidean norm of a vector. -/
noncomputable def vnorm {n : Nat} (s : Fin n → ℝ) : ℝ := Real.sqrt (sqNorm s)

/-- The literal `1e-8` of capsnet.py lines 64 and 94. -/
noncomputable def eps : ℝ := 1 / 100000000

/-- `PrimaryCapsules.squash` (capsnet.py lines 60-64):
`scale = squared_norm / (1 + squared_norm)` and the result is
`scale * s / torch.sqrt(squared_norm + 1e-8)`, broadcast over the vector. -/
noncomputable def primarySquash {n : Nat} (s : Fin n → ℝ) : Fin n → ℝ :=
  fun i => (sqNorm s / (1 + sqNorm s)) * s i / Real.sqrt (sqNorm s + eps)

/-- `SecondaryCapsules.squash` (capsnet.py lines 90-94), a line-for-line copy
of `PrimaryCapsules.squash`. -/
noncomputable def secondarySquash {n : Nat} (s : Fin n → ℝ) : Fin n → ℝ :=
  fun i => (sqNorm s / (1 + sqNorm s)) * s i / Real.sqrt (sqNorm s + eps)

/-- The scalar factor named by the claim:
`(‖s‖² / (1 + ‖s‖²)) / sqrt(‖s‖² + 1e-8)`. -/
noncomputable def squashScale {n : Nat} (s : Fin n → ℝ) : ℝ :=
  (vnorm s ^ 2 / (1 + vnorm s ^ 2)) / Real.sqrt (vnorm s ^ 2 + eps)

/-- `F.softmax(b, dim=2)` over the routes dimension (capsnet.py line 83). -/
noncomputable def softmaxRoutes {B C R : Nat} (b : Fin B → Fin C → Fin R → ℝ) :
    Fin B → Fin C → Fin R → ℝ :=
  fun i l r => Real.exp (b i l r) / ∑ r', Real.exp (b i l r')

/-- One iteration of the routing loop (capsnet.py lines 82-86) on the state
`(b, v)`: coupling coefficients `c = softmax(b, dim=2)`, weighted sum
`s = (c * u_hat).sum(dim=2)`, `v = squash(s)`, and
`b = b + (u_hat * v.unsqueeze(2)).sum(dim=-1, keepdim=True)`. -/
noncomputable def routeStep {B C R D : Nat}
    (u_hat : Fin B → Fin C → Fin R → Fin D → ℝ)
    (st : (Fin B → Fin C → Fin R → ℝ) × (Fin B → Fin C → Fin D → ℝ)) :
    (Fin B → Fin C → Fin R → ℝ) × (Fin B → Fin C → Fin D → ℝ) :=
  let c := softmaxRoutes st.1
  let s := fun i l d => ∑ r, c i l r * u_hat i l r d
  let v := fun i l => secondarySquash (s i l)
  let b := fun i l r => st.1 i l r + ∑ d, u_hat i l r d * v i l d
  (b, v)

/-- `SecondaryCapsules.forward` routing (capsnet.py lines 81-88): `b` starts
as `torch.zeros(batch, num_capsules, num_routes, 1)`, the loop
`for i in range(3)` runs three iterations, and the last computed `v` is
returned (the initial `v` component is a dummy, overwritten before it is ever
read). -/
noncomputable def routingForward {B C R D : Nat}
    (u_hat : Fin B → Fin C → Fin R → Fin D → ℝ) : Fin B → Fin C → Fin D → ℝ :=
  ((routeStep u_hat)^[3] (fun _ _ _ => 0, fun _ _ _ => 0)).2

/-- The routing computation as the claim describes it: the first coupling
coefficients are uniform over routes, each of the three iterations squashes
the coupling-weighted sum of prediction vectors and adds the inner product of
each prediction vector with `v` to the logits, and the result is the third
iteration's `v`. -/
noncomputable def claimedRouting {B C R D : Nat}
    (u_hat : Fin B → Fin C → Fin R → Fin D → ℝ) : Fin B → Fin C → Fin D → ℝ :=
  let c1 := fun (_ : Fin B) (_ : Fin C) (_ : Fin R) => (1 : ℝ) / R
  let v1 := fun i l => secondarySquash (fun d => ∑ r, c1 i l r * u_hat i l r d)
  let b1 := fun i l r => (0 : ℝ) + ∑ d, u_hat i l r d * v1 i l d
  let c2 := softmaxRoutes b1
  let v2 := fun i l => secondarySquash (fun d => ∑ r, c2 i l r * u_hat i l r d)
  let b2 := fun i l r => b1 i l r + ∑ d, u_hat i l r d * v2 i l d
  let c3 := softmaxRoutes b2
  fun i l => secondarySquash (fun d => ∑ r, c3 i l r * u_hat i l r d)

/-! ### densenetBackup1.py: generate_occlusion_sensitivity_map (lines 230-280)

The input image of shape (1, C, H, W) is a rational-valued function of
(channel, row, column) with the batch dimension dropped; the trained network
is an abstract function from images to the list of class scores
`output[0]`.  Scores are exact rationals. -/

/-- Python `range(0, stop, stride)` for a positive stride. -/
def pyRange (stop stride : Nat) : List Nat :=
  (List.range ((stop + stride - 1) / stride)).map (fun k => stride * k)

/-- `output.argmax(dim=1).item()`: index of the first maximal score
(0 on an empty score list). -/
def argmaxIdx (scores : List ℚ) : Nat :=
  (scores.enum.foldl (fun best p => if best.2 < p.2 then p else best)
    ((0 : Nat), scores.headD 0)).1

/-- `output[0, cls].item()`. -/
def scoreAt (scores : List ℚ) (cls : Nat) : ℚ := scores.getD cls 0

/-- `occluded_image[:, :, i:i+size, j:j+size] = 0` on a clone of the image
(densenetBackup1.py lines 263-266). -/
def occludeAt (image : Nat → Nat → Nat → ℚ) (i j size : Nat) :
    Nat → Nat → Nat → ℚ :=
  fun c y x =>
    if i ≤ y ∧ y < i + size ∧ j ≤ x ∧ x < j + size then 0 else image c y x

/-- Score drop caused by one occlusion window:
`original_output[0, original_class].item() - occluded_score`
(densenetBackup1.py lines 268-274). -/
def occlusionDiff (model : (Nat → Nat → Nat → ℚ) → List ℚ)
    (image : Nat → Nat → Nat → ℚ) (cls i j size : Nat) : ℚ :=
  scoreAt (model image) cls - scoreAt (model (occludeAt image i j size)) cls

/-- One region write `sensitivity_map[i:i+size, j:j+size] = value`
(densenetBackup1.py line 274). -/
def writeRegion (m : Nat → Nat → ℚ) (i j size : Nat) (value : ℚ) :
    Nat → Nat → ℚ :=
  fun y x =>
    if i ≤ y ∧ y < i + size ∧ j ≤ x ∧ x < j + size then value else m y x

/-- The window positions visited by the two nested loops
`for i in range(0, h, occlusion_stride): for j in range(0, w, occlusion_stride)`
(densenetBackup1.py lines 260-261), in loop order. -/
def windowList (h w stride : Nat) : List (Nat × Nat) :=
  (pyRange h stride).flatMap (fun i => (pyRange w stride).map (fun j => (i, j)))

/-- The raw (unnormalized) sensitivity map built by the occlusion loop
(densenetBackup1.py lines 251-274): `np.zeros((h, w))` then one region write
per window, later writes overwriting earlier ones. -/
def rawSensitivityMap (model : (Nat → Nat → Nat → ℚ) → List ℚ)
    (image : Nat → Nat → Nat → ℚ) (h w size stride : Nat) : Nat → Nat → ℚ :=
  (windowList h w stride).foldl
    (fun m p => writeRegion m p.1 p.2 size
      (occlusionDiff model image (argmaxIdx (model image)) p.1 p.2 size))
    (fun _ _ => 0)

/-- The h·w entries of a map, row-major (the array contents). -/
def mapEntries (m : Nat → Nat → ℚ) (h w : Nat) : List ℚ :=
  (List.range h).flatMap (fun y => (List.range w).map (fun x => m y x))

/-- `np.min(sensitivity_map)` (for a non-empty grid the seed `m 0 0` is one of
the entries, so this is the true minimum). -/
def mapMin (m : Nat → Nat → ℚ) (h w : Nat) : ℚ :=
  (mapEntries m h w).foldl min (m 0 0)

/-- `np.max(sensitivity_map)`. -/
def mapMax (m : Nat → Nat → ℚ) (h w : Nat) : ℚ :=
  (mapEntries m h w).foldl max (m 0 0)

/-- `astype(np.uint8)` on a nonnegative value: truncate to an integer and
reduce mod 256 (every value cast here lies in [0, 255]). -/
def toUint8 (q : ℚ) : Nat := (Int.toNat ⌊q⌋) % 256

/-- `generate_occlusion_sensitivity_map` output (densenetBackup1.py lines
276-280): the raw map affinely rescaled by
`(map - min) / (max - min)` then `* 255` and cast to uint8. -/
def normalizedSensitivityMap (model : (Nat → Nat → Nat → ℚ) → List ℚ)
    (image : Nat → Nat → Nat → ℚ) (h w size stride : Nat) : Nat → Nat → Nat :=
  fun y x =>
    toUint8 ((rawSensitivityMap model image h w size stride y x -
        mapMin (rawSensitivityMap model image h w size stride) h w) /
      (mapMax (rawSensitivityMap model image h w size stride) h w -
        mapMin (rawSensitivityMap model image h w size stride) h w) * 255)

/-- Concrete 1×2-pixel test image used by the C4 witness. -/
def wImage : Nat → Nat → Nat → ℚ :=
  fun _ _ x => if x = 0 then 1 else 3

/-- Concrete test network for the C4 witness: one class scoring the sum of
the two pixels of channel 0. -/
def wModel : (Nat → Nat → Nat → ℚ) → List ℚ :=
  fun img => [img 0 0 0 + img 0 0 1]

/-! ### Top-level behaviour of the four scripts (used for C6 and C7)

Each script's top-level control flow is transcribed as the ordered list of
its externally visible actions, one entry per source site, in execution
order.  Commented-out code contributes nothing. -/

/-- The stochastic augmentation transforms the scripts compose. -/
inductive AugTransform
  | randomRotation
  | randomResizedCrop
  | randomHorizontalFlip
  | randomVerticalFlip
  | colorJitter
deriving DecidableEq, Repr

/-- Kind of a file persisted by a script. -/
inductive FileKind
  | png
  | checkpoint
  | other
deriving DecidableEq, Repr

/-- One externally visible action of a script run. -/
inductive Effect
  | loadSpreadsheet (path : String)
  | buildDatasetWrapper
  | applyAugmentation (transforms : List AugTransform)
  | writeFile (kind : FileKind)
  | trainModel
  | systemCall (cmd : String)
deriving DecidableEq, Repr

/-- main1.py top level: load the spreadsheet (line 27), build
`ExcelImageDataset` (line 169), save augmented images — the pipeline of
line 48 is `RandomRotation` plus deterministic resize/pad — writing `.png`
files (lines 210-215, called at line 222), and build `AugmentedImageDataset`
(line 253).  The whole training/evaluation/Grad-CAM/checkpoint block (lines
262-344) is commented out. -/
def main1Trace : List Effect :=
  [Effect.loadSpreadsheet "./dataRef/release_midas.xlsx",
   Effect.buildDatasetWrapper,
   Effect.applyAugmentation [AugTransform.randomRotation],
   Effect.writeFile FileKind.png,
   Effect.buildDatasetWrapper]

/-- models/old_cnn.py top level: load the spreadsheet (line 29), build
`ExcelImageDataset` (line 138), save originals as `.png` (line 126), apply
the augmentation pipeline of lines 51-57 (line 130) and save the results as
`.png` (line 133), build `AugmentedImageDataset` (line 177), train the model
(line 245), and save the occlusion-sensitivity figure as `.png` (line 296,
called at line 304). -/
def oldCnnTrace : List Effect :=
  [Effect.loadSpreadsheet "./dataRef/release_midas.xlsx",
   Effect.buildDatasetWrapper,
   Effect.writeFile FileKind.png,
   Effect.applyAugmentation
     [AugTransform.randomResizedCrop, AugTransform.randomHorizontalFlip,
      AugTransform.randomVerticalFlip, AugTransform.randomRotation,
      AugTransform.colorJitter],
   Effect.writeFile FileKind.png,
   Effect.buildDatasetWrapper,
   Effect.trainModel,
   Effect.writeFile FileKind.png]

/-- capsnet.py when run as main (lines 155-156): `train_capsule_network`
loads the spreadsheet and builds `ExcelImageDataset` (lines 113, 123) with a
deterministic resize-and-to-tensor transform (lines 117-120, no stochastic
augmentation), then trains (lines 134-151).  Nothing is written to disk. -/
def capsnetTrace : List Effect :=
  [Effect.loadSpreadsheet
     "/root/stanfordData4321/stanfordData4321/dataRef/release_midas.xlsx",
   Effect.buildDatasetWrapper,
   Effect.trainModel]

/-- models/densenetBackup1.py top level: build `ExcelImageDataset` (loading
the spreadsheet, line 110) and wrap it in `AugmentedImageDataset` over
previously augmented images on disk (line 110, no augmentation transform is
applied), train with Optuna then with the best parameters (lines 131-195),
write the sensitivity maps as `.png` (line 338), and shell out to git
(lines 345-347). -/
def densenetTrace : List Effect :=
  [Effect.loadSpreadsheet "./dataRef/release_midas.xlsx",
   Effect.buildDatasetWrapper,
   Effect.buildDatasetWrapper,
   Effect.trainModel,
   Effect.writeFile FileKind.png,
   Effect.systemCall "git add ./OS/*",
   Effect.systemCall "git commit -m 'Added updated sensitivity maps'",
   Effect.systemCall "git push"]

/-- The four scripts of the repository with their traces. -/
def scriptTraces : List (String × List Effect) :=
  [("capsnet.py", capsnetTrace), ("main1.py", main1Trace),
   ("models/old_cnn.py", oldCnnTrace), ("models/densenetBackup1.py", densenetTrace)]

/-- Base name of a path (the part after the last `/`). -/
def baseName (p : String) : String :=
  String.mk ((p.data.reverse.takeWhile (fun c => c ≠ '/')).reverse)

/-- Whether a trace loads a spreadsheet file named `release_midas.xlsx`. -/
def loadsMidas (tr : List Effect) : Bool :=
  tr.any (fun e => match e with
    | Effect.loadSpreadsheet p => decide (baseName p = "release_midas.xlsx")
    | _ => false)

/-- Whether a trace builds a dataset wrapper. -/
def buildsWrapper (tr : List Effect) : Bool :=
  tr.any (fun e => match e with
    | Effect.buildDatasetWrapper => true
    | _ => false)

/-- Whether a trace applies a non-empty stochastic augmentation pipeline. -/
def hasStochasticAugmentation (tr : List Effect) : Bool :=
  tr.any (fun e => match e with
    | Effect.applyAugmentation ts => !ts.isEmpty
    | _ => false)

/-- The augmentation pipelines a trace applies. -/
def augPipelinesOf (tr : List Effect) : List (List AugTransform) :=
  tr.filterMap (fun e => match e with
    | Effect.applyAugmentation ts => some ts
    | _ => none)

/-- Whether a trace trains a model. -/
def hasTrain (tr : List Effect) : Bool :=
  tr.any (fun e => match e with
    | Effect.trainModel => true
    | _ => false)

/-- Whether an effect, if it writes a file, writes a checkpoint or a PNG. -/
def writeIsCheckpointOrPng (e : Effect) : Bool :=
  match e with
  | Effect.writeFile k => decide (k = FileKind.png ∨ k = FileKind.checkpoint)
  | _ => true

/-- Whether an effect, if it writes a file, writes a PNG. -/
def writeIsPng (e : Effect) : Bool :=
  match e with
  | Effect.writeFile k => decide (k = FileKind.png)
  | _ => true

/-- The shell commands a trace invokes via `os.system`. -/
def systemCallsOf (tr : List Effect) : List String :=
  tr.filterMap (fun e => match e with
    | Effect.systemCall c => some c
    | _ => none)

/-! ## Theorems -/

theorem find?_isSome_eq_any {α : Type} (p : α → Bool) :
    ∀ l : List α, (l.find? p).isSome = l.any p := by
  intro l
  induction l with
  | nil => rfl
  | cons a t ih => cases h : p a <;> simp [List.find?_cons, h, ih]

theorem length_filterMap_eq_length_filter {α β : Type} (f : α → Option β) :
    ∀ l : List α, (l.filterMap f).length = (l.filter (fun a => (f a).isSome)).length := by
  intro l
  induction l with
  | nil => rfl
  | cons a t ih => cases h : f a <;> simp [List.filterMap_cons, List.filter_cons, h, ih]

theorem main1_findInRoots_spec (fname label : String) (fs : List String) :
    ∀ rootDirs : List String,
      Main1.findInRoots fname label fs rootDirs =
        if labelMapMem label then
          (firstRootWithFile fname rootDirs fs).map
            (fun root => (joinPath root fname, label))
        else none := by
  intro rootDirs
  induction rootDirs with
  | nil => cases h : labelMapMem label <;> simp [Main1.findInRoots, firstRootWithFile, h]
  | cons root rest ih =>
    by_cases hmem : (joinPath root fname) ∈ fs
    · cases h : labelMapMem label <;>
        simp [Main1.findInRoots, firstRootWithFile, List.find?_cons, hmem, h, ih]
    · cases h : labelMapMem label <;>
        simp [Main1.findInRoots, firstRootWithFile, List.find?_cons, hmem, h] <;>
        simpa [firstRootWithFile, h] using ih

theorem main1_findInRoots_eq_retainRow (rootDirs fs : List String) (r : Row) :
    Main1.findInRoots r.fileName r.label fs rootDirs = retainRow rootDirs fs r := by
  rw [main1_findInRoots_spec, retainRow]

theorem oldCnn_findInRoots_eq_main1 (fname label : String) (fs : List String) :
    ∀ rootDirs : List String,
      OldCnn.findInRoots fname label fs rootDirs =
        Main1.findInRoots fname label fs rootDirs := by
  intro rootDirs
  induction rootDirs with
  | nil => rfl
  | cons root rest ih => simp [OldCnn.findInRoots, Main1.findInRoots, ih]

theorem densenet_findInRoots_eq_main1 (fname label : String) (fs : List String) :
    ∀ rootDirs : List String,
      DensenetBackup.findInRoots fname label fs rootDirs =
        Main1.findInRoots fname label fs rootDirs := by
  intro rootDirs
  induction rootDirs with
  | nil => rfl
  | cons root rest ih => simp [DensenetBackup.findInRoots, Main1.findInRoots, ih]

theorem main1_getImagePaths_eq_retain (rows : List Row) (rootDirs fs : List String) :
    Main1.getImagePaths rows rootDirs fs = rows.filterMap (retainRow rootDirs fs) := by
  unfold Main1.getImagePaths
  exact List.filterMap_congr (fun r _ => main1_findInRoots_eq_retainRow rootDirs fs r)

theorem retainRow_label_mem (rootDirs fs : List String) (r : Row) (p : String × String)
    (h : retainRow rootDirs fs r = some p) : labelMapMem p.2 = true := by
  unfold retainRow at h
  by_cases hl : labelMapMem r.label
  · simp only [hl, if_pos] at h
    rcases Option.map_eq_some'.mp h with ⟨root, _, rfl⟩
    exact hl
  · simp [hl] at h

theorem retainRow_isSome (rootDirs fs : List String) (r : Row) :
    (retainRow rootDirs fs r).isSome =
      (labelMapMem r.label &&
        rootDirs.any (fun root => decide ((joinPath root r.fileName) ∈ fs))) := by
  unfold retainRow firstRootWithFile
  cases h : labelMapMem r.label
  · simp [h]
  · simp [h, find?_isSome_eq_any]

/-- C1: the three dataset wrappers named `ExcelImageDataset` in main1.py,
old_cnn.py and densenetBackup1.py are duplicates: on the same spreadsheet
rows, root-directory list and filesystem state, `_get_image_paths` returns
identical lists of (image path, label) pairs, and `__getitem__` returns equal
(image, label-index) pairs at every index. -/
theorem stanford_C1_duplicate_dataset_wrappers :
    (∀ (rows : List Row) (rootDirs fs : List String),
      Main1.getImagePaths rows rootDirs fs = OldCnn.getImagePaths rows rootDirs fs ∧
      Main1.getImagePaths rows rootDirs fs = DensenetBackup.getImagePaths rows rootDirs fs) ∧
    (∀ (Img : Type) (loadImage : String → Img) (transform : Option (Img → Img))
      (imagePaths : List (String × String)) (idx : Nat),
      Main1.getItem loadImage transform imagePaths idx =
        OldCnn.getItem loadImage transform imagePaths idx ∧
      Main1.getItem loadImage transform imagePaths idx =
        DensenetBackup.getItem loadImage transform imagePaths idx) := by
  constructor
  · intro rows rootDirs fs
    constructor
    · unfold Main1.getImagePaths OldCnn.getImagePaths
      exact (List.filterMap_congr
        (fun r _ => (oldCnn_findInRoots_eq_main1 r.fileName r.label fs rootDirs))).symm
    · unfold Main1.getImagePaths DensenetBackup.getImagePaths
      exact (List.filterMap_congr
        (fun r _ => (densenet_findInRoots_eq_main1 r.fileName r.label fs rootDirs))).symm
  · intro Img loadImage transform imagePaths idx
    exact ⟨rfl, rfl⟩

/-- C2: after construction, every stored (path, label) pair joins the first
root directory (in order) under which the row's file exists with the file
name, and carries a label among the 14 fixed categories; rows whose file
exists under no root directory or whose label is not a fixed category are
excluded; and the dataset length is the number of retained rows.  Stated for
the main1.py and old_cnn.py copies the claim cites. -/
theorem stanford_C2_image_paths_invariant (rows : List Row) (rootDirs fs : List String) :
    Main1.getImagePaths rows rootDirs fs = rows.filterMap (retainRow rootDirs fs) ∧
    OldCnn.getImagePaths rows rootDirs fs = rows.filterMap (retainRow rootDirs fs) ∧
    ((Main1.getImagePaths rows rootDirs fs).all (fun p => labelMapMem p.2)) = true ∧
    Main1.datasetLen rows rootDirs fs =
      (rows.filter (fun r => labelMapMem r.label &&
        rootDirs.any (fun root => decide ((joinPath root r.fileName) ∈ fs)))).length := by
  refine ⟨main1_getImagePaths_eq_retain rows rootDirs fs, ?_, ?_, ?_⟩
  · rw [← main1_getImagePaths_eq_retain]
    unfold Main1.getImagePaths OldCnn.getImagePaths
    exact List.filterMap_congr
      (fun r _ => (oldCnn_findInRoots_eq_main1 r.fileName r.label fs rootDirs))
  · rw [List.all_eq_true]
    intro p hp
    rw [main1_getImagePaths_eq_retain] at hp
    rcases List.mem_filterMap.mp hp with ⟨r, _, hr⟩
    exact retainRow_label_mem rootDirs fs r p hr
  · unfold Main1.datasetLen
    rw [main1_getImagePaths_eq_retain, length_filterMap_eq_length_filter]
    congr 1
    exact List.filter_congr (fun r _ => retainRow_isSome rootDirs fs r)

/-- C5: when the spreadsheet file at the hard-coded path does not exist the
script raises `FileNotFoundError` without reading any data (the outcome does
not depend on the reader), and when it exists no error is raised and the
spreadsheet is loaded. -/
theorem stanford_C5_missing_spreadsheet (fs : List String)
    (readExcel readExcel' : String → List Row) :
    (excelFilePath ∉ fs →
      scriptPrelude fs readExcel =
        Except.error (excelFilePath ++ " does not exist. Please check the path.") ∧
      scriptPrelude fs readExcel = scriptPrelude fs readExcel') ∧
    (excelFilePath ∈ fs →
      scriptPrelude fs readExcel = Except.ok (readExcel excelFilePath)) := by
  constructor
  · intro h
    constructor <;> simp [scriptPrelude, h]
  · intro h
    simp [scriptPrelude, h]

theorem stanford_C5_missing_spreadsheet_witness :
    (excelFilePath ∉ ([] : List String) ∧
      scriptPrelude [] (fun _ => []) =
        Except.error (excelFilePath ++ " does not exist. Please check the path.")) ∧
    (excelFilePath ∈ [excelFilePath] ∧
      scriptPrelude [excelFilePath] (fun _ => []) = Except.ok []) := by
  refine ⟨⟨List.not_mem_nil _, ?_⟩, List.mem_singleton.mpr rfl, ?_⟩
  · exact ((stanford_C5_missing_spreadsheet [] (fun _ => []) (fun _ => [])).1
      (List.not_mem_nil _)).1
  · exact (stanford_C5_missing_spreadsheet [excelFilePath] (fun _ => [])
      (fun _ => [])).2 (List.mem_singleton.mpr rfl)

theorem labelMapGet_bounds : ∀ l ∈ categories, 0 ≤ labelMapGet l ∧ labelMapGet l ≤ 13 := by
  decide

theorem labelMapMem_iff (l : String) : labelMapMem l = true ↔ l ∈ categories := by
  simp [labelMapMem, List.contains]

theorem main1_mem_label (rows : List Row) (rootDirs fs : List String) (p : String × String)
    (hp : p ∈ Main1.getImagePaths rows rootDirs fs) : labelMapMem p.2 = true := by
  rw [main1_getImagePaths_eq_retain] at hp
  rcases List.mem_filterMap.mp hp with ⟨r, _, hr⟩
  exact retainRow_label_mem rootDirs fs r p hr

/-- C8: for every index below the dataset length, `__getitem__` returns a
label value in [0, 13]; the −1 default of `label_map.get(label, -1)` is
unreachable because `_get_image_paths` only stores pairs whose label is a key
of `label_map`. -/
theorem stanford_C8_label_in_range {Img : Type} (loadImage : String → Img)
    (transform : Option (Img → Img)) (rows : List Row) (rootDirs fs : List String)
    (idx : Nat) (h : idx < Main1.datasetLen rows rootDirs fs) :
    ∃ img lab,
      Main1.getItem loadImage transform (Main1.getImagePaths rows rootDirs fs) idx =
        some (img, lab) ∧ 0 ≤ lab ∧ lab ≤ 13 := by
  unfold Main1.datasetLen at h
  rcases hp : (Main1.getImagePaths rows rootDirs fs).get ⟨idx, h⟩ with ⟨name, labstr⟩
  have hget : (Main1.getImagePaths rows rootDirs fs).get? idx = some (name, labstr) := by
    rw [List.get?_eq_get h, hp]
  have hmem : (name, labstr) ∈ Main1.getImagePaths rows rootDirs fs :=
    hp ▸ (Main1.getImagePaths rows rootDirs fs).get_mem _ _
  have hlab : labelMapMem labstr = true :=
    main1_mem_label rows rootDirs fs (name, labstr) hmem
  have hb := labelMapGet_bounds labstr ((labelMapMem_iff labstr).mp hlab)
  have hget' : (Main1.getImagePaths rows rootDirs fs)[idx]? = some (name, labstr) := by
    rw [← List.get?_eq_getElem?]
    exact hget
  refine ⟨(match transform with | some t => t (loadImage name) | none => loadImage name),
    labelMapGet labstr, ?_, hb.1, hb.2⟩
  cases transform <;> simp [Main1.getItem, hget']

theorem stanford_C8_label_in_range_witness :
    0 < Main1.datasetLen [⟨"a.png", "7-malignant-bcc"⟩] ["root"] ["root/a.png"] ∧
    ∃ img lab,
      Main1.getItem (fun _ => ()) none
        (Main1.getImagePaths [⟨"a.png", "7-malignant-bcc"⟩] ["root"] ["root/a.png"]) 0 =
        some (img, lab) ∧ 0 ≤ lab ∧ lab ≤ 13 :=
  ⟨by decide,
   stanford_C8_label_in_range (fun _ => ()) none
     [⟨"a.png", "7-malignant-bcc"⟩] ["root"] ["root/a.png"] 0 (by decide)⟩

theorem insertGroup_nonempty {Img : Type} :
    ∀ (gs : List (Nat × List (Img × Nat))) (lab : Nat) (entry : Img × Nat),
      (∀ g ∈ gs, g.2 ≠ []) → ∀ g ∈ insertGroup gs lab entry, g.2 ≠ [] := by
  intro gs
  induction gs with
  | nil =>
    intro lab entry _ g hg
    simp [insertGroup] at hg
    simp [hg]
  | cons hd rest ih =>
    intro lab entry hall g hg
    obtain ⟨l, es⟩ := hd
    by_cases hl : l = lab
    · simp [insertGroup, hl] at hg
      rcases hg with hg | hg
      · simp [hg]
      · exact hall g (List.mem_cons_of_mem _ hg)
    · simp only [insertGroup, if_neg hl, List.mem_cons] at hg
      rcases hg with hg | hg
      · exact hg ▸ hall (l, es) (List.mem_cons_self _ _)
      · exact ih lab entry (fun g' hg' => hall g' (List.mem_cons_of_mem _ hg')) g hg

theorem groupByLabel_nonempty {Img : Type} (ds : List (Img × Nat)) :
    ∀ g ∈ groupByLabel ds, g.2 ≠ [] := by
  unfold groupByLabel
  have main : ∀ (l : List (Nat × (Img × Nat))) (gs : List (Nat × List (Img × Nat))),
      (∀ g ∈ gs, g.2 ≠ []) →
      ∀ g ∈ l.foldl (fun gs p => insertGroup gs p.2.2 (p.2.1, p.1)) gs, g.2 ≠ [] := by
    intro l
    induction l with
    | nil => intro gs h; exact h
    | cons p rest ih =>
      intro gs h
      exact ih _ (insertGroup_nonempty gs p.2.2 (p.2.1, p.1) h)
  exact main ds.enum [] (by simp)

theorem forPass_props {Img : Type} (nImages target : Nat) :
    ∀ (images : List (Img × Nat)) (cur : Nat),
      (forPass nImages target images cur).2 =
          cur + (forPass nImages target images cur).1.length ∧
      (forPass nImages target images cur).1.length =
          min images.length (target - cur) ∧
      ((forPass nImages target images cur).1.map SaveRec.counter) =
          List.range' cur (min images.length (target - cur)) ∧
      ∀ r ∈ (forPass nImages target images cur).1,
        r.augmented = decide (nImages ≤ r.counter) := by
  intro images
  induction images with
  | nil => intro cur; simp [forPass]
  | cons e rest ih =>
    intro cur
    obtain ⟨img, idx⟩ := e
    by_cases hc : target ≤ cur
    · have h0 : target - cur = 0 := Nat.sub_eq_zero_of_le hc
      simp [forPass, hc, h0]
    · obtain ⟨ih1, ih2, ih3, ih4⟩ := ih (cur + 1)
      have hmin : min (rest.length + 1) (target - cur) =
          min rest.length (target - (cur + 1)) + 1 := by omega
      refine ⟨?_, ?_, ?_, ?_⟩
      · simp [forPass, hc, ih1]
        omega
      · simp [forPass, hc, ih2, hmin]
      · have hrange : List.range' cur (min rest.length (target - (cur + 1)) + 1) =
            cur :: List.range' (cur + 1) (min rest.length (target - (cur + 1))) := by
          rw [List.range'_succ]
        simp [forPass, hc, ih3, hmin, hrange]
      · intro r hr
        simp only [forPass, if_neg hc, List.mem_cons] at hr
        rcases hr with hr | hr
        · simp [hr]
        · exact ih4 r hr

theorem whileLoop_total {Img : Type} (images : List (Img × Nat)) (target : Nat)
    (hne : images ≠ []) :
    ∀ (fuel cur : Nat), target ≤ cur + fuel →
      ∃ recs, whileLoop images target fuel cur = some recs ∧
        recs.map SaveRec.counter = List.range' cur (target - cur) ∧
        ∀ r ∈ recs, r.augmented = decide (images.length ≤ r.counter) := by
  have hlen : 0 < images.length := List.length_pos.mpr hne
  intro fuel
  induction fuel with
  | zero =>
    intro cur hc
    have : ¬ cur < target := by omega
    refine ⟨[], by simp [whileLoop, this], ?_, by simp⟩
    have : target - cur = 0 := by omega
    simp [this]
  | succ fuel ih =>
    intro cur hc
    by_cases hcur : cur < target
    · obtain ⟨p1, p2, p3, p4⟩ := forPass_props images.length target images cur
      have hplen : 1 ≤ (forPass images.length target images cur).1.length := by
        rw [p2]; omega
      obtain ⟨more, hmore, hmorec, hmorea⟩ :=
        ih ((forPass images.length target images cur).2) (by omega)
      refine ⟨(forPass images.length target images cur).1 ++ more, ?_, ?_, ?_⟩
      · simp [whileLoop, hcur, hmore]
      · rw [List.map_append, p3, hmorec, p1, p2]
        have happ := List.range'_append cur (min images.length (target - cur))
          (target - (cur + min images.length (target - cur))) 1
        simp only [Nat.one_mul, Nat.mul_one] at happ
        rw [happ]
        congr 1
        omega
      · intro r hr
        rcases List.mem_append.mp hr with hr | hr
        · exact p4 r hr
        · exact hmorea r hr
    · refine ⟨[], by simp [whileLoop, hcur], ?_, by simp⟩
      have : target - cur = 0 := by omega
      simp [this]

/-- C9: `save_augmented_images_with_exact_cap` terminates for every non-empty
dataset and target count — every label group built from the dataset is
non-empty, and each pass of the inner loop strictly increases
`current_count` — and for an initially empty output directory and
`target_count ≥ 1` each label's directory ends with exactly `target_count`
`.png` files (pairwise-distinct names), the first `len(images)` of them saved
unaugmented and the remainder augmented. -/
theorem stanford_C9_save_augmented_terminates (Img : Type) (ds : List (Img × Nat))
    (images : List (Img × Nat)) (target : Nat)
    (hne : images ≠ []) (_htarget : 1 ≤ target) :
    (∀ g ∈ groupByLabel ds, g.2 ≠ []) ∧
    (∀ cur, cur < target → cur < (forPass images.length target images cur).2) ∧
    (∃ recs, saveForLabel images target = some recs ∧
      recs.length = target ∧
      recs.map SaveRec.counter = List.range target ∧
      (recs.map (fun r => (r.idx, r.counter))).Nodup ∧
      ∀ r ∈ recs, r.augmented = decide (images.length ≤ r.counter)) := by
  have hlen : 0 < images.length := List.length_pos.mpr hne
  refine ⟨groupByLabel_nonempty ds, ?_, ?_⟩
  · intro cur hcur
    obtain ⟨p1, p2, _, _⟩ := forPass_props images.length target images cur
    rw [p1, p2]
    omega
  · obtain ⟨recs, hrecs, hcount, haug⟩ :=
      whileLoop_total images target hne target 0 (by omega)
    have hlenr : recs.length = target := by
      have := congrArg List.length hcount
      simpa using this
    refine ⟨recs, hrecs, hlenr, ?_, ?_, haug⟩
    · rw [hcount, List.range_eq_range']
      simp
    · have hsnd : (recs.map (fun r => (r.idx, r.counter))).map Prod.snd =
          recs.map SaveRec.counter := by
        rw [List.map_map]
        rfl
      apply List.Nodup.of_map Prod.snd
      rw [hsnd, hcount]
      exact List.nodup_range' _ _

theorem stanford_C9_save_augmented_terminates_witness :
    (([((), 5)] : List (Unit × Nat)) ≠ [] ∧ 1 ≤ 2) ∧
    ((∀ g ∈ groupByLabel ([((), 0), ((), 1), ((), 0)] : List (Unit × Nat)), g.2 ≠ []) ∧
     (∀ cur, cur < 2 → cur < (forPass ([((), 5)] : List (Unit × Nat)).length 2 [((), 5)] cur).2) ∧
     (∃ recs, saveForLabel ([((), 5)] : List (Unit × Nat)) 2 = some recs ∧
       recs.length = 2 ∧
       recs.map SaveRec.counter = List.range 2 ∧
       (recs.map (fun r => (r.idx, r.counter))).Nodup ∧
       ∀ r ∈ recs, r.augmented = decide (([((), 5)] : List (Unit × Nat)).length ≤ r.counter))) :=
  ⟨⟨by decide, by decide⟩,
   stanford_C9_save_augmented_terminates Unit [((), 0), ((), 1), ((), 0)]
     [((), 5)] 2 (by decide) (by decide)⟩

theorem sqNorm_nonneg {n : Nat} (s : Fin n → ℝ) : 0 ≤ sqNorm s :=
  Finset.sum_nonneg (fun i _ => sq_nonneg (s i))

theorem vnorm_sq_eq {n : Nat} (s : Fin n → ℝ) : vnorm s ^ 2 = sqNorm s :=
  Real.sq_sqrt (sqNorm_nonneg s)

theorem eps_pos : 0 < eps := by norm_num [eps]

theorem squash_eq_scale_mul {n : Nat} (s : Fin n → ℝ) :
    primarySquash s = fun i => squashScale s * s i := by
  funext i
  unfold primarySquash squashScale
  rw [vnorm_sq_eq]
  exact mul_div_right_comm _ _ _

theorem squashScale_nonneg {n : Nat} (s : Fin n → ℝ) : 0 ≤ squashScale s := by
  unfold squashScale
  rw [vnorm_sq_eq]
  have h1 : (0:ℝ) ≤ sqNorm s / (1 + sqNorm s) :=
    div_nonneg (sqNorm_nonneg s) (by linarith [sqNorm_nonneg s])
  exact div_nonneg h1 (Real.sqrt_nonneg _)

theorem vnorm_squash_eq {n : Nat} (s : Fin n → ℝ) :
    vnorm (primarySquash s) = squashScale s * vnorm s := by
  rw [squash_eq_scale_mul]
  unfold vnorm sqNorm
  have hsum : ∑ i, (squashScale s * s i) ^ 2 = squashScale s ^ 2 * ∑ i, (s i) ^ 2 := by
    rw [Finset.mul_sum]
    exact Finset.sum_congr rfl (fun i _ => by ring)
  rw [hsum, Real.sqrt_mul (sq_nonneg _), Real.sqrt_sq_eq_abs,
    abs_of_nonneg (squashScale_nonneg s)]

theorem squash_norm_lt_one {n : Nat} (s : Fin n → ℝ) : vnorm (primarySquash s) < 1 := by
  rw [vnorm_squash_eq]
  have hq : 0 ≤ sqNorm s := sqNorm_nonneg s
  have hAnn : (0:ℝ) ≤ sqNorm s / (1 + sqNorm s) := div_nonneg hq (by linarith)
  have hA : sqNorm s / (1 + sqNorm s) < 1 := (div_lt_one (by linarith)).mpr (by linarith)
  have hBnn : (0:ℝ) ≤ Real.sqrt (sqNorm s) / Real.sqrt (sqNorm s + eps) :=
    div_nonneg (Real.sqrt_nonneg _) (Real.sqrt_nonneg _)
  have hB : Real.sqrt (sqNorm s) / Real.sqrt (sqNorm s + eps) < 1 := by
    have hlt : Real.sqrt (sqNorm s) < Real.sqrt (sqNorm s + eps) :=
      Real.sqrt_lt_sqrt hq (by linarith [eps_pos])
    have hpos : 0 < Real.sqrt (sqNorm s + eps) :=
      Real.sqrt_pos.mpr (by linarith [eps_pos])
    exact (div_lt_one hpos).mpr hlt
  have hval : squashScale s * vnorm s =
      (sqNorm s / (1 + sqNorm s)) *
        (Real.sqrt (sqNorm s) / Real.sqrt (sqNorm s + eps)) := by
    unfold squashScale
    rw [vnorm_sq_eq]
    unfold vnorm
    rw [div_mul_eq_mul_div, mul_div_assoc]
  rw [hval]
  calc (sqNorm s / (1 + sqNorm s)) *
        (Real.sqrt (sqNorm s) / Real.sqrt (sqNorm s + eps))
      ≤ sqNorm s / (1 + sqNorm s) := mul_le_of_le_one_right hAnn (le_of_lt hB)
    _ < 1 := hA

/-- C10: in exact real arithmetic the squash function shared by both capsule
layers returns a nonnegative scalar multiple of its input — the scalar being
`(‖s‖² / (1 + ‖s‖²)) / sqrt(‖s‖² + 1e-8)` — whose Euclidean norm is strictly
below 1, and it maps the zero vector to the zero vector. -/
theorem stanford_C10_squash_properties (n : Nat) (s : Fin n → ℝ) :
    primarySquash s = secondarySquash s ∧
    primarySquash s = (fun i => squashScale s * s i) ∧
    0 ≤ squashScale s ∧
    vnorm (primarySquash s) < 1 ∧
    primarySquash (fun _ : Fin n => (0:ℝ)) = fun _ => 0 := by
  refine ⟨rfl, squash_eq_scale_mul s, squashScale_nonneg s, squash_norm_lt_one s, ?_⟩
  funext i
  simp [primarySquash]

theorem softmaxRoutes_zero (B C R : Nat) :
    softmaxRoutes (fun (_ : Fin B) (_ : Fin C) (_ : Fin R) => (0:ℝ)) =
      fun _ _ _ => 1 / (R : ℝ) := by
  funext i l r
  simp [softmaxRoutes, Real.exp_zero]

/-- C3: `SecondaryCapsules.forward` performs exactly 3 routing iterations on
logits that start all-zero (so the first coupling coefficients
`softmax(b, dim=2)` are uniform over the routes), each iteration squashing
the coupling-weighted sum of prediction vectors and adding the inner product
of each prediction vector with `v` to the logits; the returned value is the
third iteration's `v`. -/
theorem stanford_C3_routing_iterations (B C R D : Nat)
    (u_hat : Fin B → Fin C → Fin R → Fin D → ℝ) :
    softmaxRoutes (fun (_ : Fin B) (_ : Fin C) (_ : Fin R) => (0:ℝ)) =
      (fun _ _ _ => 1 / (R : ℝ)) ∧
    routingForward u_hat = claimedRouting u_hat := by
  refine ⟨softmaxRoutes_zero B C R, ?_⟩
  unfold routingForward claimedRouting
  simp only [Function.iterate_succ, Function.iterate_zero, Function.comp_apply, id_eq]
  simp only [routeStep, softmaxRoutes_zero]

theorem foldl_writeRegion_eq (size : Nat) (f : Nat × Nat → ℚ) :
    ∀ (ws : List (Nat × Nat)) (m : Nat → Nat → ℚ) (y x : Nat),
      (ws.foldl (fun acc p => writeRegion acc p.1 p.2 size (f p)) m) y x =
        match ws.reverse.find? (fun p =>
            decide (p.1 ≤ y ∧ y < p.1 + size) && decide (p.2 ≤ x ∧ x < p.2 + size)) with
        | some p => f p
        | none => m y x := by
  intro ws
  induction ws with
  | nil => intro m y x; rfl
  | cons q ws ih =>
    intro m y x
    rw [List.foldl_cons, ih, List.reverse_cons, List.find?_append]
    cases hf : ws.reverse.find? (fun p =>
        decide (p.1 ≤ y ∧ y < p.1 + size) && decide (p.2 ≤ x ∧ x < p.2 + size)) with
    | some p => rfl
    | none =>
      simp only [Option.none_or]
      cases hcq : (decide (q.1 ≤ y ∧ y < q.1 + size) && decide (q.2 ≤ x ∧ x < q.2 + size)) with
      | true =>
        have hand := (Bool.and_eq_true _ _).mp hcq
        have hp : q.1 ≤ y ∧ y < q.1 + size ∧ q.2 ≤ x ∧ x < q.2 + size :=
          ⟨(of_decide_eq_true hand.1).1, (of_decide_eq_true hand.1).2,
           (of_decide_eq_true hand.2).1, (of_decide_eq_true hand.2).2⟩
        simp only [List.find?, hcq, writeRegion]
        rw [if_pos hp]
      | false =>
        have hp : ¬(q.1 ≤ y ∧ y < q.1 + size ∧ q.2 ≤ x ∧ x < q.2 + size) := by
          intro hc
          simp [hc.1, hc.2.1, hc.2.2.1, hc.2.2.2] at hcq
        simp only [List.find?, hcq, writeRegion]
        rw [if_neg hp]

theorem find?_reverse_range (q : Nat → Bool) :
    ∀ (n k : Nat), k < n → q k = true → (∀ m, k < m → m < n → q m = false) →
      (List.range n).reverse.find? q = some k := by
  intro n
  induction n with
  | zero => intro k hk _ _; exact absurd hk (Nat.not_lt_zero k)
  | succ n ih =>
    intro k hk hq habove
    rw [List.range_succ, List.reverse_append, List.reverse_cons, List.reverse_nil,
      List.nil_append, List.cons_append]
    by_cases hkn : k = n
    · subst hkn
      simp [List.find?, hq]
    · have hkn' : k < n := by omega
      have hqn : q n = false := habove n hkn' (by omega)
      rw [List.find?_cons_of_neg _ (by simp [hqn]), List.nil_append]
      exact ih k hkn' hq (fun m h1 h2 => habove m h1 (by omega))

theorem find?_reverse_pyRange (stop stride size t : Nat)
    (hstride : 0 < stride) (hsize : stride ≤ size) (ht : t < stop) :
    (pyRange stop stride).reverse.find?
        (fun i => decide (i ≤ t ∧ t < i + size)) =
      some (stride * (t / stride)) := by
  unfold pyRange
  rw [← List.map_reverse, List.find?_map]
  have hcomp : ((fun i => decide (i ≤ t ∧ t < i + size)) ∘ (fun k => stride * k)) =
      (fun k => decide (stride * k ≤ t ∧ t < stride * k + size)) := rfl
  rw [hcomp]
  have hdm := Nat.div_add_mod t stride
  have hmod := Nat.mod_lt t hstride
  have hceil : stop ≤ stride * ((stop + stride - 1) / stride) := by
    have h1 := Nat.div_add_mod (stop + stride - 1) stride
    have h2 := Nat.mod_lt (stop + stride - 1) hstride
    omega
  have hkn : t / stride < (stop + stride - 1) / stride := by
    by_contra hcon
    push_neg at hcon
    have := Nat.mul_le_mul_left stride hcon
    omega
  rw [find?_reverse_range _ _ (t / stride) hkn (by simp; omega) ?_]
  · rfl
  · intro m h1 h2
    have hstep : stride * (t / stride + 1) ≤ stride * m :=
      Nat.mul_le_mul_left stride (by omega)
    rw [Nat.mul_succ] at hstep
    simp only [decide_eq_false_iff_not, not_and]
    intro hle
    omega

theorem reverse_windowList (h w stride : Nat) :
    (windowList h w stride).reverse =
      (pyRange h stride).reverse.flatMap
        (fun i => (pyRange w stride).reverse.map (fun j => (i, j))) := by
  unfold windowList
  rw [List.reverse_flatMap]
  congr 1
  funext i
  simp only [Function.comp_apply]
  exact (List.map_reverse _ _).symm

theorem find?_product (cI cJ : Nat → Bool) :
    ∀ (l1 l2 : List Nat),
      (l1.flatMap (fun i => l2.map (fun j => (i, j)))).find?
          (fun p => cI p.1 && cJ p.2) =
        match l1.find? cI, l2.find? cJ with
        | some i, some j => some (i, j)
        | some _, none => none
        | none, _ => none := by
  intro l1
  induction l1 with
  | nil =>
    intro l2
    cases hj : l2.find? cJ <;> rfl
  | cons i1 rest ih =>
    intro l2
    rw [List.flatMap_cons, List.find?_append, ih l2]
    have hpre : ((fun p => cI p.1 && cJ p.2) ∘ (fun j => ((i1 : Nat), j))) =
        (fun j => cI i1 && cJ j) := rfl
    cases hcI : cI i1 with
    | false =>
      have hmap : (l2.map (fun j => (i1, j))).find? (fun p => cI p.1 && cJ p.2) = none := by
        rw [List.find?_map, hpre]
        refine Option.map_eq_none'.mpr (List.find?_eq_none.mpr ?_)
        intro j _
        simp [hcI]
      rw [hmap, List.find?_cons_of_neg _ (by simp [hcI]), Option.none_or]
    | true =>
      have hmap : (l2.map (fun j => (i1, j))).find? (fun p => cI p.1 && cJ p.2) =
          (l2.find? cJ).map (fun j => (i1, j)) := by
        rw [List.find?_map, hpre]
        simp only [hcI, Bool.true_and]
      rw [hmap, List.find?_cons_of_pos _ (by simp [hcI])]
      cases hj : l2.find? cJ with
      | some j0 => rfl
      | none =>
        simp only [Option.map_none', Option.none_or]
        cases rest.find? cI <;> rfl

theorem find?_product_decide (y x size : Nat) (l1 l2 : List Nat) :
    (l1.flatMap (fun i => l2.map (fun j => (i, j)))).find?
        (fun p => decide (p.1 ≤ y ∧ y < p.1 + size) && decide (p.2 ≤ x ∧ x < p.2 + size)) =
      match l1.find? (fun i => decide (i ≤ y ∧ y < i + size)),
            l2.find? (fun j => decide (j ≤ x ∧ x < j + size)) with
      | some i, some j => some (i, j)
      | some _, none => none
      | none, _ => none :=
  find?_product (fun i => decide (i ≤ y ∧ y < i + size))
    (fun j => decide (j ≤ x ∧ x < j + size)) l1 l2

theorem rawSensitivityMap_eq_lastWindow (model : (Nat → Nat → Nat → ℚ) → List ℚ)
    (image : Nat → Nat → Nat → ℚ) (h w size stride y x : Nat)
    (hstride : 0 < stride) (hsize : stride ≤ size) (hy : y < h) (hx : x < w) :
    ((windowList h w stride).reverse.find? (fun p =>
        decide (p.1 ≤ y ∧ y < p.1 + size) && decide (p.2 ≤ x ∧ x < p.2 + size)) =
      some (stride * (y / stride), stride * (x / stride))) ∧
    rawSensitivityMap model image h w size stride y x =
      occlusionDiff model image (argmaxIdx (model image))
        (stride * (y / stride)) (stride * (x / stride)) size := by
  have hfind : (windowList h w stride).reverse.find? (fun p =>
      decide (p.1 ≤ y ∧ y < p.1 + size) && decide (p.2 ≤ x ∧ x < p.2 + size)) =
      some (stride * (y / stride), stride * (x / stride)) := by
    rw [reverse_windowList,
      find?_product_decide y x size ((pyRange h stride).reverse) ((pyRange w stride).reverse),
      find?_reverse_pyRange h stride size y hstride hsize hy,
      find?_reverse_pyRange w stride size x hstride hsize hx]
  refine ⟨hfind, ?_⟩
  unfold rawSensitivityMap
  rw [foldl_writeRegion_eq, hfind]

theorem foldl_min_le_init {α : Type} [LinearOrder α] :
    ∀ (l : List α) (init : α), l.foldl min init ≤ init := by
  intro l
  induction l with
  | nil => intro init; simp
  | cons a t ih =>
    intro init
    exact le_trans (ih (min init a)) (min_le_left _ _)

theorem foldl_min_le_mem {α : Type} [LinearOrder α] :
    ∀ (l : List α) (init v : α), v ∈ l → l.foldl min init ≤ v := by
  intro l
  induction l with
  | nil => intro init v hv; exact absurd hv (List.not_mem_nil v)
  | cons a t ih =>
    intro init v hv
    rcases List.mem_cons.mp hv with rfl | hv
    · exact le_trans (foldl_min_le_init t (min init v)) (min_le_right _ _)
    · exact ih (min init a) v hv

theorem foldl_min_cases {α : Type} [LinearOrder α] :
    ∀ (l : List α) (init : α), l.foldl min init = init ∨ l.foldl min init ∈ l := by
  intro l
  induction l with
  | nil => intro init; exact Or.inl rfl
  | cons a t ih =>
    intro init
    rcases ih (min init a) with heq | hmem
    · rcases min_choice init a with hm | hm
      · exact Or.inl (by rw [List.foldl_cons, heq, hm])
      · refine Or.inr ?_
        rw [List.foldl_cons, heq, hm]
        exact List.mem_cons_self a t
    · exact Or.inr (List.mem_cons_of_mem a hmem)

theorem foldl_max_init_le {α : Type} [LinearOrder α] :
    ∀ (l : List α) (init : α), init ≤ l.foldl max init := by
  intro l
  induction l with
  | nil => intro init; simp
  | cons a t ih =>
    intro init
    exact le_trans (le_max_left _ _) (ih (max init a))

theorem foldl_max_mem_le {α : Type} [LinearOrder α] :
    ∀ (l : List α) (init v : α), v ∈ l → v ≤ l.foldl max init := by
  intro l
  induction l with
  | nil => intro init v hv; exact absurd hv (List.not_mem_nil v)
  | cons a t ih =>
    intro init v hv
    rcases List.mem_cons.mp hv with rfl | hv
    · exact le_trans (le_max_right _ _) (foldl_max_init_le t (max init v))
    · exact ih (max init a) v hv

theorem foldl_max_cases {α : Type} [LinearOrder α] :
    ∀ (l : List α) (init : α), l.foldl max init = init ∨ l.foldl max init ∈ l := by
  intro l
  induction l with
  | nil => intro init; exact Or.inl rfl
  | cons a t ih =>
    intro init
    rcases ih (max init a) with heq | hmem
    · rcases max_choice init a with hm | hm
      · exact Or.inl (by rw [List.foldl_cons, heq, hm])
      · refine Or.inr ?_
        rw [List.foldl_cons, heq, hm]
        exact List.mem_cons_self a t
    · exact Or.inr (List.mem_cons_of_mem a hmem)

theorem mapEntries_mem (m : Nat → Nat → ℚ) {h w y x : Nat}
    (hy : y < h) (hx : x < w) : m y x ∈ mapEntries m h w := by
  unfold mapEntries
  refine List.mem_flatMap.mpr ⟨y, List.mem_range.mpr hy, ?_⟩
  exact List.mem_map.mpr ⟨x, List.mem_range.mpr hx, rfl⟩

theorem exists_of_mem_mapEntries {m : Nat → Nat → ℚ} {h w : Nat} {v : ℚ}
    (hv : v ∈ mapEntries m h w) : ∃ y x, y < h ∧ x < w ∧ m y x = v := by
  unfold mapEntries at hv
  rcases List.mem_flatMap.mp hv with ⟨y, hy, hv2⟩
  rcases List.mem_map.mp hv2 with ⟨x, hx, hvx⟩
  exact ⟨y, x, List.mem_range.mp hy, List.mem_range.mp hx, hvx⟩

theorem mapMin_le (m : Nat → Nat → ℚ) {h w y x : Nat} (hy : y < h) (hx : x < w) :
    mapMin m h w ≤ m y x :=
  foldl_min_le_mem _ _ _ (mapEntries_mem m hy hx)

theorem le_mapMax (m : Nat → Nat → ℚ) {h w y x : Nat} (hy : y < h) (hx : x < w) :
    m y x ≤ mapMax m h w :=
  foldl_max_mem_le _ _ _ (mapEntries_mem m hy hx)

theorem mapMin_attained (m : Nat → Nat → ℚ) {h w : Nat} (hh : 0 < h) (hw : 0 < w) :
    ∃ y x, y < h ∧ x < w ∧ m y x = mapMin m h w := by
  rcases foldl_min_cases (mapEntries m h w) (m 0 0) with heq | hmem
  · exact ⟨0, 0, hh, hw, heq.symm⟩
  · rcases exists_of_mem_mapEntries hmem with ⟨y, x, hy, hx, hv⟩
    exact ⟨y, x, hy, hx, hv⟩

theorem mapMax_attained (m : Nat → Nat → ℚ) {h w : Nat} (hh : 0 < h) (hw : 0 < w) :
    ∃ y x, y < h ∧ x < w ∧ m y x = mapMax m h w := by
  rcases foldl_max_cases (mapEntries m h w) (m 0 0) with heq | hmem
  · exact ⟨0, 0, hh, hw, heq.symm⟩
  · rcases exists_of_mem_mapEntries hmem with ⟨y, x, hy, hx, hv⟩
    exact ⟨y, x, hy, hx, hv⟩

/-- C4: for a (1, C, H, W) input, `generate_occlusion_sensitivity_map` fills
each position with the original predicted-class score minus the occluded-image
score of the occlusion window most recently written over that position
(windows of size `occlusion_size` advanced by `occlusion_stride` in loop
order, overlapping windows overwriting earlier values), then affinely
rescales the whole map so its minimum maps to 0 and its maximum to 255 as
uint8.  Stated for a positive stride at most the window size (the code calls
it with 15 and 15) and, for the rescaling, a non-constant raw map. -/
theorem stanford_C4_occlusion_sensitivity (model : (Nat → Nat → Nat → ℚ) → List ℚ)
    (image : Nat → Nat → Nat → ℚ) (h w size stride y x : Nat)
    (hstride : 0 < stride) (hsize : stride ≤ size) (hy : y < h) (hx : x < w)
    (hmm : mapMin (rawSensitivityMap model image h w size stride) h w <
        mapMax (rawSensitivityMap model image h w size stride) h w) :
    ((windowList h w stride).reverse.find? (fun p =>
        decide (p.1 ≤ y ∧ y < p.1 + size) && decide (p.2 ≤ x ∧ x < p.2 + size)) =
      some (stride * (y / stride), stride * (x / stride))) ∧
    rawSensitivityMap model image h w size stride y x =
      occlusionDiff model image (argmaxIdx (model image))
        (stride * (y / stride)) (stride * (x / stride)) size ∧
    normalizedSensitivityMap model image h w size stride y x =
      toUint8 ((rawSensitivityMap model image h w size stride y x -
          mapMin (rawSensitivityMap model image h w size stride) h w) /
        (mapMax (rawSensitivityMap model image h w size stride) h w -
          mapMin (rawSensitivityMap model image h w size stride) h w) * 255) ∧
    (rawSensitivityMap model image h w size stride y x =
        mapMin (rawSensitivityMap model image h w size stride) h w →
      normalizedSensitivityMap model image h w size stride y x = 0) ∧
    (rawSensitivityMap model image h w size stride y x =
        mapMax (rawSensitivityMap model image h w size stride) h w →
      normalizedSensitivityMap model image h w size stride y x = 255) ∧
    (∃ y0 x0, y0 < h ∧ x0 < w ∧
      rawSensitivityMap model image h w size stride y0 x0 =
        mapMin (rawSensitivityMap model image h w size stride) h w) ∧
    (∃ y1 x1, y1 < h ∧ x1 < w ∧
      rawSensitivityMap model image h w size stride y1 x1 =
        mapMax (rawSensitivityMap model image h w size stride) h w) ∧
    (∀ y' x', y' < h → x' < w →
      mapMin (rawSensitivityMap model image h w size stride) h w ≤
          rawSensitivityMap model image h w size stride y' x' ∧
        rawSensitivityMap model image h w size stride y' x' ≤
          mapMax (rawSensitivityMap model image h w size stride) h w) := by
  obtain ⟨hfind, hraw⟩ :=
    rawSensitivityMap_eq_lastWindow model image h w size stride y x hstride hsize hy hx
  refine ⟨hfind, hraw, rfl, ?_, ?_,
    mapMin_attained _ (by omega) (by omega), mapMax_attained _ (by omega) (by omega),
    fun y' x' hy' hx' => ⟨mapMin_le _ hy' hx', le_mapMax _ hy' hx'⟩⟩
  · intro heq
    unfold normalizedSensitivityMap
    rw [heq]
    simp [toUint8]
  · intro heq
    unfold normalizedSensitivityMap
    rw [heq, div_self (sub_ne_zero.mpr (ne_of_gt hmm))]
    norm_num [toUint8]
    decide

theorem stanford_C4_occlusion_sensitivity_witness :
    ((0:Nat) < 1 ∧ (1:Nat) ≤ 1 ∧ (0:Nat) < 1 ∧ (0:Nat) < 2 ∧
      mapMin (rawSensitivityMap wModel wImage 1 2 1 1) 1 2 <
        mapMax (rawSensitivityMap wModel wImage 1 2 1 1) 1 2) ∧
    (((windowList 1 2 1).reverse.find? (fun p =>
        decide (p.1 ≤ 0 ∧ 0 < p.1 + 1) && decide (p.2 ≤ 0 ∧ 0 < p.2 + 1)) =
      some (1 * (0 / 1), 1 * (0 / 1))) ∧
    rawSensitivityMap wModel wImage 1 2 1 1 0 0 =
      occlusionDiff wModel wImage (argmaxIdx (wModel wImage))
        (1 * (0 / 1)) (1 * (0 / 1)) 1 ∧
    normalizedSensitivityMap wModel wImage 1 2 1 1 0 0 =
      toUint8 ((rawSensitivityMap wModel wImage 1 2 1 1 0 0 -
          mapMin (rawSensitivityMap wModel wImage 1 2 1 1) 1 2) /
        (mapMax (rawSensitivityMap wModel wImage 1 2 1 1) 1 2 -
          mapMin (rawSensitivityMap wModel wImage 1 2 1 1) 1 2) * 255) ∧
    (rawSensitivityMap wModel wImage 1 2 1 1 0 0 =
        mapMin (rawSensitivityMap wModel wImage 1 2 1 1) 1 2 →
      normalizedSensitivityMap wModel wImage 1 2 1 1 0 0 = 0) ∧
    (rawSensitivityMap wModel wImage 1 2 1 1 0 0 =
        mapMax (rawSensitivityMap wModel wImage 1 2 1 1) 1 2 →
      normalizedSensitivityMap wModel wImage 1 2 1 1 0 0 = 255) ∧
    (∃ y0 x0, y0 < 1 ∧ x0 < 2 ∧
      rawSensitivityMap wModel wImage 1 2 1 1 y0 x0 =
        mapMin (rawSensitivityMap wModel wImage 1 2 1 1) 1 2) ∧
    (∃ y1 x1, y1 < 1 ∧ x1 < 2 ∧
      rawSensitivityMap wModel wImage 1 2 1 1 y1 x1 =
        mapMax (rawSensitivityMap wModel wImage 1 2 1 1) 1 2) ∧
    (∀ y' x', y' < 1 → x' < 2 →
      mapMin (rawSensitivityMap wModel wImage 1 2 1 1) 1 2 ≤
          rawSensitivityMap wModel wImage 1 2 1 1 y' x' ∧
        rawSensitivityMap wModel wImage 1 2 1 1 y' x' ≤
          mapMax (rawSensitivityMap wModel wImage 1 2 1 1) 1 2)) :=
  ⟨⟨by decide, by decide, by decide, by decide, by
      norm_num [mapMin, mapMax, mapEntries, rawSensitivityMap, windowList, pyRange,
        writeRegion, occlusionDiff, occludeAt, scoreAt, argmaxIdx, wModel, wImage,
        List.range_succ]⟩,
   stanford_C4_occlusion_sensitivity wModel wImage 1 2 1 1 0 0
     (by decide) (by decide) (by decide) (by decide)
     (by norm_num [mapMin, mapMax, mapEntries, rawSensitivityMap, windowList, pyRange,
        writeRegion, occlusionDiff, occludeAt, scoreAt, argmaxIdx, wModel, wImage,
        List.range_succ])⟩

/-- C6 counterexample: it is false that every one of the four scripts loads
the spreadsheet, rebuilds a dataset wrapper, applies stochastic augmentation
and trains a model: capsnet.py applies no stochastic augmentation and
main1.py never trains (its training block is commented out). -/
theorem stanford_C6_counterexample :
    ¬ (∀ s ∈ scriptTraces, loadsMidas s.2 = true ∧ buildsWrapper s.2 = true ∧
        hasStochasticAugmentation s.2 = true ∧ hasTrain s.2 = true) := by
  decide

/-- C6 (amended): all four scripts load a spreadsheet named
`release_midas.xlsx` and rebuild a dataset wrapper over it; old_cnn.py
applies stochastic augmentation (crop, horizontal and vertical flip,
rotation, color jitter) and main1.py applies rotation-only augmentation, and
both write the synthesized examples; old_cnn.py, densenetBackup1.py and
capsnet.py train a model end to end, while main1.py trains nothing (its
training code is commented out) and capsnet.py and densenetBackup1.py apply
no stochastic augmentation. -/
theorem stanford_C6_scripts_amended :
    loadsMidas main1Trace = true ∧ loadsMidas oldCnnTrace = true ∧
    loadsMidas capsnetTrace = true ∧ loadsMidas densenetTrace = true ∧
    buildsWrapper main1Trace = true ∧ buildsWrapper oldCnnTrace = true ∧
    buildsWrapper capsnetTrace = true ∧ buildsWrapper densenetTrace = true ∧
    augPipelinesOf oldCnnTrace =
      [[AugTransform.randomResizedCrop, AugTransform.randomHorizontalFlip,
        AugTransform.randomVerticalFlip, AugTransform.randomRotation,
        AugTransform.colorJitter]] ∧
    augPipelinesOf main1Trace = [[AugTransform.randomRotation]] ∧
    hasTrain oldCnnTrace = true ∧ hasTrain capsnetTrace = true ∧
    hasTrain densenetTrace = true ∧
    hasTrain main1Trace = false ∧
    hasStochasticAugmentation capsnetTrace = false ∧
    hasStochasticAugmentation densenetTrace = false := by
  decide

/-- C7 counterexample: it is false that the scripts write only checkpoint or
PNG files and invoke no protocol or command-line interface beyond being run
directly: models/densenetBackup1.py shells out to the git command-line
interface (`git add`, `git commit`, `git push`). -/
theorem stanford_C7_counterexample :
    ¬ (∀ s ∈ scriptTraces, s.2.all writeIsCheckpointOrPng = true ∧
        systemCallsOf s.2 = []) := by
  decide

/-- C7 (amended): every file the four scripts write is a PNG (and hence a
checkpoint or a PNG — no checkpoint is ever written, since the only
`torch.save` call is commented out); main1.py, old_cnn.py and capsnet.py
invoke no external command, but densenetBackup1.py invokes the git
command-line interface three times (`git add ./OS/*`, `git commit -m ...`,
`git push`), the last of which speaks to a remote. -/
theorem stanford_C7_outputs_amended :
    main1Trace.all writeIsPng = true ∧ oldCnnTrace.all writeIsPng = true ∧
    capsnetTrace.all writeIsPng = true ∧ densenetTrace.all writeIsPng = true ∧
    main1Trace.all writeIsCheckpointOrPng = true ∧
    oldCnnTrace.all writeIsCheckpointOrPng = true ∧
    capsnetTrace.all writeIsCheckpointOrPng = true ∧
    densenetTrace.all writeIsCheckpointOrPng = true ∧
    systemCallsOf main1Trace = [] ∧ systemCallsOf oldCnnTrace = [] ∧
    systemCallsOf capsnetTrace = [] ∧
    systemCallsOf densenetTrace =
      ["git add ./OS/*", "git commit -m 'Added updated sensitivity maps'",
       "git push"] := by
  decide

end StanfordData
